import Mathlib

/-!
Shallow embedding of the orchestration core of the hairstyle_analyzer
Streamlit application (`src/hairstyle_analyzer/ui/streamlit_app.py`):
session-state initialization, progress reporting, the per-image batch
processing loop, template-selection confirmation, result display/export
conversion, and image-upload handling.  External effects (the Gemini
analysis call, the file system, PIL validation) are modelled as explicit
inputs; everything else follows the Python source line by line.
-/

set_option maxRecDepth 10000

/-- Modelled from the spec (section 3) and the test fixtures: the
`StyleFeatures` record from `hairstyle_analyzer.data.models`, whose source
file is not part of the analysed sources. -/
structure StyleFeatures where
  color : String
  cut_technique : String
  styling : String
  impression : String
deriving DecidableEq, Repr

/-- Modelled from the spec (section 3): `StyleAnalysis` from
`hairstyle_analyzer.data.models`. -/
structure StyleAnalysis where
  category : String
  features : StyleFeatures
  keywords : List String
deriving DecidableEq, Repr

/-- Modelled from the spec (section 3): `AttributeAnalysis` from
`hairstyle_analyzer.data.models`. -/
structure AttributeAnalysis where
  sex : String
  length : String
deriving DecidableEq, Repr

/-- Modelled from the spec (section 3): `Template` from
`hairstyle_analyzer.data.models`. -/
structure Template where
  category : String
  title : String
  menu : String
  comment : String
  hashtag : String
deriving DecidableEq, Repr, Inhabited

/-- Modelled from the spec (section 3): `StylistInfo` from
`hairstyle_analyzer.data.models`. -/
structure StylistInfo where
  name : String
  specialties : String
  description : String
deriving DecidableEq, Repr

/-- Modelled from the spec (section 3): `CouponInfo` from
`hairstyle_analyzer.data.models`. -/
structure CouponInfo where
  name : String
  price : Int
  description : String
deriving DecidableEq, Repr

/-- Modelled from the spec (section 3): the `ProcessResult` aggregate from
`hairstyle_analyzer.data.models`.  `selected_template` is always populated
on success (spec invariant); `user_selected_template` is nullable and set
only by the human confirmation step. -/
structure ProcessResult where
  image_name : String
  style_analysis : StyleAnalysis
  attribute_analysis : AttributeAnalysis
  selected_template : Template
  alternative_templates : List Template
  user_selected_template : Option Template
  selected_stylist : StylistInfo
  selected_coupon : CouponInfo
  stylist_reason : String
  coupon_reason : String
  template_reason : String
deriving DecidableEq, Repr

/-- The progress dictionary stored under `SESSION_PROGRESS`
(`streamlit_app.py`, `init_session_state` lines 104-111 and
`process_images` lines 184-191).  The optional `stage_details` mirrors the
key that is only sometimes present in the dict. -/
structure Progress where
  current : Int
  total : Int
  message : String
  start_time : Option Nat
  complete : Bool
  stage_details : Option String
deriving DecidableEq, Repr

/-- The initial progress value written by `init_session_state`
(lines 104-111): current 0, total 0, empty message, no start time, not
complete, and no `stage_details` key. -/
def init_progress : Progress :=
  { current := 0, total := 0, message := "", start_time := none,
    complete := false, stage_details := none }

/-- Embedding of `update_progress` (`streamlit_app.py` lines 129-145).
The session slot for `SESSION_PROGRESS` is an `Option Progress`: when the
key is absent the function is a no-op, otherwise it overwrites `current`,
`total` and `message` verbatim, stores `stage_details` when one is given,
and sets `complete` when `current >= total and total > 0`.  The function is
total: no input makes it raise. -/
def update_progress (current total : Int) (message : String)
    (stage_details : Option String) (sess : Option Progress) :
    Option Progress :=
  match sess with
  | none => none
  | some progress =>
    let progress := { progress with
      current := current, total := total, message := message }
    let progress :=
      match stage_details with
      | some d => { progress with stage_details := some d }
      | none => progress
    let progress :=
      if current ≥ total ∧ total > 0 then { progress with complete := true }
      else progress
    some progress

/-- The Streamlit session state restricted to the keys managed by
`init_session_state` (lines 97-126).  Each field is `none` when the key is
absent from `st.session_state` and `some v` when it is present with value
`v`; the processor slot itself holds an optional handle (the code stores
`None` there initially), modelled as `Option Unit`. -/
@[ext]
structure SessionState where
  processor : Option (Option Unit)
  results : Option (List ProcessResult)
  progress : Option Progress
  stylists : Option (List StylistInfo)
  coupons : Option (List CouponInfo)
  use_cache : Option Bool
  template_choices : Option (List (String × List Template))
  user_selections : Option (List (String × Int))
  salon_url : Option String
deriving DecidableEq

/-- Embedding of `init_session_state` (`streamlit_app.py` lines 97-126):
each managed key is written with its default only when it is absent, in
the source order. -/
def init_session_state (s : SessionState) : SessionState :=
  let s := if s.processor.isNone then { s with processor := some none } else s
  let s := if s.results.isNone then { s with results := some [] } else s
  let s := if s.progress.isNone then { s with progress := some init_progress } else s
  let s := if s.stylists.isNone then { s with stylists := some [] } else s
  let s := if s.coupons.isNone then { s with coupons := some [] } else s
  let s := if s.use_cache.isNone then { s with use_cache := some false } else s
  let s := if s.template_choices.isNone then { s with template_choices := some [] } else s
  let s := if s.user_selections.isNone then { s with user_selections := some [] } else s
  let s := if s.salon_url.isNone then { s with salon_url := some "" } else s
  s

/-- All keys managed by `init_session_state` are present in the session. -/
def all_keys_present (s : SessionState) : Prop :=
  s.processor.isSome ∧ s.results.isSome ∧ s.progress.isSome ∧
  s.stylists.isSome ∧ s.coupons.isSome ∧ s.use_cache.isSome ∧
  s.template_choices.isSome ∧ s.user_selections.isSome ∧ s.salon_url.isSome

instance (s : SessionState) : Decidable (all_keys_present s) := by
  unfold all_keys_present; infer_instance

/-- Outcome of one `processor.process_single_image` call as observed by the
`process_images` loop (`streamlit_app.py` lines 224-247): the coroutine
either returns a result object (`success`), returns a falsy value such as
`None` (`empty`, in which case nothing is appended), or raises an exception
that is caught by the per-image handler (`failure`, carrying the message
`str(e)`). -/
inductive ImageOutcome where
  | success (r : ProcessResult)
  | empty
  | failure (msg : String)
deriving DecidableEq

/-- `Path(image_path).name`: the final path component. -/
def pathName (p : String) : String :=
  ((p.splitOn "/").getLast?).getD p

/-- The fixed stage list `processing_stages` (lines 175-181). -/
def processing_stages : List String :=
  ["画像読み込み", "スタイル分析", "テンプレートマッチング", "スタイリスト選択", "タイトル生成"]

/-- The `stage_details` string written before an image is processed
(lines 213-215). -/
def startDetails (name : String) : String :=
  "画像: " ++ name ++ "\n" ++
  "現在の段階: " ++ (processing_stages.getD 0 "") ++ "\n" ++
  "次の段階: " ++ (processing_stages.getD 1 "")

/-- The `stage_details` string written after an image finished
(lines 233-235). -/
def doneDetails (name : String) : String :=
  "画像: " ++ name ++ "\n" ++
  "完了した段階: " ++ String.intercalate ", " processing_stages ++ "\n" ++
  "処理完了"

/-- The `stage_details` string written when an image raised (lines 256-258). -/
def errDetails (name msg : String) : String :=
  "画像: " ++ name ++ "\n" ++
  "エラー発生: " ++ msg ++ "\n" ++
  "次の画像に進みます"

/-- The progress update of lines 201-219: `current` is set to the loop
index, `message` to the per-image banner, and `stage_details` to the
pre-processing details. -/
def loopStartWrite (total i : Nat) (name : String) (p : Progress) : Progress :=
  { p with
    current := (i : Int),
    message := "画像 " ++ toString (i + 1) ++ "/" ++ toString total ++ " を処理中...",
    stage_details := some (startDetails name) }

/-- The progress update of lines 232-237 after a processor call returned. -/
def loopDoneWrite (name : String) (p : Progress) : Progress :=
  { p with stage_details := some (doneDetails name) }

/-- The progress update of lines 255-260 after a caught per-image error. -/
def loopErrWrite (name msg : String) (p : Progress) : Progress :=
  { p with stage_details := some (errDetails name msg) }

@[simp] lemma loopStartWrite_current (total i : Nat) (name : String) (p : Progress) :
    (loopStartWrite total i name p).current = (i : Int) := rfl

@[simp] lemma loopStartWrite_complete (total i : Nat) (name : String) (p : Progress) :
    (loopStartWrite total i name p).complete = p.complete := rfl

@[simp] lemma loopDoneWrite_current (name : String) (p : Progress) :
    (loopDoneWrite name p).current = p.current := rfl

@[simp] lemma loopDoneWrite_complete (name : String) (p : Progress) :
    (loopDoneWrite name p).complete = p.complete := rfl

@[simp] lemma loopErrWrite_current (name msg : String) (p : Progress) :
    (loopErrWrite name msg p).current = p.current := rfl

@[simp] lemma loopErrWrite_complete (name msg : String) (p : Progress) :
    (loopErrWrite name msg p).complete = p.complete := rfl

/-- The per-image loop of `process_images` (lines 199-265).  The single
mutable `progress` dict is threaded through; the middle component collects
the successive values stored into `st.session_state[SESSION_PROGRESS]`
(two writes per image: one before the processor call, one after success or
failure), and the last component is the dict value after the loop.  A
caught exception skips the append and continues with the next image. -/
def processLoop (proc : String → ImageOutcome) (total : Nat) :
    Nat → List String → Progress →
    List ProcessResult × List Progress × Progress
  | _, [], p => ([], [], p)
  | i, image_path :: rest, p =>
    let image_name := pathName image_path
    let p1 := loopStartWrite total i image_name p
    match proc image_path with
    | ImageOutcome.success r =>
      let p2 := loopDoneWrite image_name p1
      let out := processLoop proc total (i + 1) rest p2
      (r :: out.1, p1 :: p2 :: out.2.1, out.2.2)
    | ImageOutcome.empty =>
      let p2 := loopDoneWrite image_name p1
      let out := processLoop proc total (i + 1) rest p2
      (out.1, p1 :: p2 :: out.2.1, out.2.2)
    | ImageOutcome.failure msg =>
      let p2 := loopErrWrite image_name msg p1
      let out := processLoop proc total (i + 1) rest p2
      (out.1, p1 :: p2 :: out.2.1, out.2.2)

/-- The initial progress dict of `process_images` (lines 184-192). -/
def initialProgressWrite (total t0 : Nat) : Progress :=
  { current := 0, total := (total : Int), message := "初期化中...",
    start_time := some t0, complete := false,
    stage_details := some ("準備中: " ++ (processing_stages.getD 0 "")) }

/-- The completion write of lines 267-272. -/
def finalProgressWrite (total : Nat) (p : Progress) : Progress :=
  { p with
    current := (total : Int), message := "処理完了", complete := true,
    stage_details := some ("全ての画像処理が完了しました。合計: " ++ toString total ++ "画像") }

/-- Embedding of `process_images` (`streamlit_app.py` lines 148-292) for a
live processor (the processor-reinitialization fallback of lines 153-167 is
not taken).  Returns the accumulated results together with the sequence of
progress values written to the session: nothing at all for an empty input
list (the early return of lines 170-172 happens before the progress dict is
initialized), otherwise the initial dict of lines 184-192, the per-image
writes, and the final completion write of lines 267-272. -/
def process_images (proc : String → ImageOutcome) (image_paths : List String)
    (t0 : Nat) : List ProcessResult × List Progress :=
  if image_paths.isEmpty then ([], [])
  else
    let total := image_paths.length
    let p0 := initialProgressWrite total t0
    let out := processLoop proc total 0 image_paths p0
    let pfin := finalProgressWrite total out.2.2
    (out.1, p0 :: out.2.1 ++ [pfin])

/-- The sequence of progress values written during one batch run. -/
def progress_writes (proc : String → ImageOutcome) (image_paths : List String)
    (t0 : Nat) : List Progress :=
  (process_images proc image_paths t0).2

/-- The session progress after a run: the last written value, or the
previous session value when the run wrote nothing. -/
def progress_after (sess : Progress)
    (run : List ProcessResult × List Progress) : Progress :=
  run.2.getLast?.getD sess

/-- The result contributed by one image: its processor outcome when that is
a truthy result, nothing otherwise (line 243: `if result:`). -/
def image_result (proc : String → ImageOutcome) (image_path : String) :
    Option ProcessResult :=
  match proc image_path with
  | ImageOutcome.success r => some r
  | _ => none

lemma processLoop_results (proc : String → ImageOutcome) (total : Nat) :
    ∀ (rest : List String) (i : Nat) (p : Progress),
      (processLoop proc total i rest p).1 = rest.filterMap (image_result proc) := by
  intro rest
  induction rest with
  | nil => intro i p; simp [processLoop]
  | cons x xs ih =>
    intro i p
    simp only [processLoop, List.filterMap_cons]
    cases h : proc x <;> simp [image_result, h, ih]

lemma process_images_results (proc : String → ImageOutcome)
    (image_paths : List String) (t0 : Nat) :
    (process_images proc image_paths t0).1 =
      image_paths.filterMap (image_result proc) := by
  by_cases h : image_paths.isEmpty
  · rcases List.isEmpty_iff.mp h with rfl
    simp [process_images]
  · simp [process_images, h, processLoop_results]

lemma processLoop_trace_length (proc : String → ImageOutcome) (total : Nat) :
    ∀ (rest : List String) (i : Nat) (p : Progress),
      (processLoop proc total i rest p).2.1.length = 2 * rest.length := by
  intro rest
  induction rest with
  | nil => intro i p; simp [processLoop]
  | cons x xs ih =>
    intro i p
    cases h : proc x <;>
      simp [processLoop, h, ih, List.length_cons] <;> omega

/-- Invariant of the per-image loop: starting from an incomplete dict whose
`current` is at most the loop index, the written progress values form a
chain with non-decreasing `current`, all stay incomplete with `current`
strictly below `index + remaining`, and the threaded-out dict is the last
write (or the entry dict when nothing was written). -/
lemma processLoop_inv (proc : String → ImageOutcome) (total : Nat) :
    ∀ (rest : List String) (i : Nat) (p : Progress),
      p.complete = false → p.current ≤ (i : Int) →
      List.Chain' (fun a b => a.current ≤ b.current)
          (p :: (processLoop proc total i rest p).2.1) ∧
      (p :: (processLoop proc total i rest p).2.1).getLast?
          = some (processLoop proc total i rest p).2.2 ∧
      (∀ q ∈ (processLoop proc total i rest p).2.1,
          q.complete = false ∧ q.current < (i : Int) + rest.length) ∧
      (processLoop proc total i rest p).2.2.complete = false ∧
      (processLoop proc total i rest p).2.2.current ≤ (i : Int) + rest.length := by
  intro rest
  induction rest with
  | nil =>
    intro i p hc hcur
    exact ⟨List.chain'_singleton p, by simp [processLoop],
      by simp [processLoop], hc, by simpa [processLoop] using hcur⟩
  | cons x xs ih =>
    intro i p hc hcur
    cases h : proc x with
    | success r =>
      simp only [processLoop, h]
      obtain ⟨ihA, ihB, ihC, ihD, ihE⟩ :=
        ih (i + 1) (loopDoneWrite (pathName x) (loopStartWrite total i (pathName x) p))
          (by simp [hc])
          (by simp only [loopDoneWrite_current, loopStartWrite_current]; omega)
      refine ⟨?_, ?_, ?_, ihD, ?_⟩
      · exact List.Chain'.cons (by simpa using hcur)
          (List.Chain'.cons (by simp) ihA)
      · rw [List.getLast?_cons_cons, List.getLast?_cons_cons]
        exact ihB
      · intro q hq
        rcases List.mem_cons.mp hq with rfl | hq
        · refine ⟨by simp [hc], ?_⟩
          simp only [loopStartWrite_current, List.length_cons]
          push_cast
          omega
        rcases List.mem_cons.mp hq with rfl | hq
        · refine ⟨by simp [hc], ?_⟩
          simp only [loopDoneWrite_current, loopStartWrite_current, List.length_cons]
          push_cast
          omega
        · obtain ⟨h1, h2⟩ := ihC q hq
          refine ⟨h1, ?_⟩
          simp only [List.length_cons]
          push_cast at h2 ⊢
          omega
      · simp only [List.length_cons]
        push_cast at ihE ⊢
        omega
    | empty =>
      simp only [processLoop, h]
      obtain ⟨ihA, ihB, ihC, ihD, ihE⟩ :=
        ih (i + 1) (loopDoneWrite (pathName x) (loopStartWrite total i (pathName x) p))
          (by simp [hc])
          (by simp only [loopDoneWrite_current, loopStartWrite_current]; omega)
      refine ⟨?_, ?_, ?_, ihD, ?_⟩
      · exact List.Chain'.cons (by simpa using hcur)
          (List.Chain'.cons (by simp) ihA)
      · rw [List.getLast?_cons_cons, List.getLast?_cons_cons]
        exact ihB
      · intro q hq
        rcases List.mem_cons.mp hq with rfl | hq
        · refine ⟨by simp [hc], ?_⟩
          simp only [loopStartWrite_current, List.length_cons]
          push_cast
          omega
        rcases List.mem_cons.mp hq with rfl | hq
        · refine ⟨by simp [hc], ?_⟩
          simp only [loopDoneWrite_current, loopStartWrite_current, List.length_cons]
          push_cast
          omega
        · obtain ⟨h1, h2⟩ := ihC q hq
          refine ⟨h1, ?_⟩
          simp only [List.length_cons]
          push_cast at h2 ⊢
          omega
      · simp only [List.length_cons]
        push_cast at ihE ⊢
        omega
    | failure msg =>
      simp only [processLoop, h]
      obtain ⟨ihA, ihB, ihC, ihD, ihE⟩ :=
        ih (i + 1) (loopErrWrite (pathName x) msg (loopStartWrite total i (pathName x) p))
          (by simp [hc])
          (by simp only [loopErrWrite_current, loopStartWrite_current]; omega)
      refine ⟨?_, ?_, ?_, ihD, ?_⟩
      · exact List.Chain'.cons (by simpa using hcur)
          (List.Chain'.cons (by simp) ihA)
      · rw [List.getLast?_cons_cons, List.getLast?_cons_cons]
        exact ihB
      · intro q hq
        rcases List.mem_cons.mp hq with rfl | hq
        · refine ⟨by simp [hc], ?_⟩
          simp only [loopStartWrite_current, List.length_cons]
          push_cast
          omega
        rcases List.mem_cons.mp hq with rfl | hq
        · refine ⟨by simp [hc], ?_⟩
          simp only [loopErrWrite_current, loopStartWrite_current, List.length_cons]
          push_cast
          omega
        · obtain ⟨h1, h2⟩ := ihC q hq
          refine ⟨h1, ?_⟩
          simp only [List.length_cons]
          push_cast at h2 ⊢
          omega
      · simp only [List.length_cons]
        push_cast at ihE ⊢
        omega

/-- C6: over the life of a non-empty batch, the progress values written by
`process_images` have a non-decreasing `current`; every write before the
last one has `complete = false` and `current < total`; and the final write
has `current = total` and `complete = true` — the progress state reaches
`current = total` with the completion flag exactly when the batch ends,
not before. -/
theorem C6_progress_monotone (proc : String → ImageOutcome)
    (image_paths : List String) (t0 : Nat) (h : image_paths ≠ []) :
    List.Chain' (fun a b => a.current ≤ b.current)
        (progress_writes proc image_paths t0) ∧
    (∀ q ∈ (progress_writes proc image_paths t0).dropLast,
        q.complete = false ∧ q.current < (image_paths.length : Int)) ∧
    (∀ q, (progress_writes proc image_paths t0).getLast? = some q →
        q.current = (image_paths.length : Int) ∧ q.complete = true) := by
  have hne : image_paths.isEmpty = false := by
    simp [List.isEmpty_iff, h]
  have hlen : 0 < image_paths.length := List.length_pos.mpr h
  obtain ⟨hA, hB, hC, hD, hE⟩ :=
    processLoop_inv proc image_paths.length image_paths 0
      (initialProgressWrite image_paths.length t0) rfl
      (by simp [initialProgressWrite])
  have hW : progress_writes proc image_paths t0 =
      (initialProgressWrite image_paths.length t0 ::
        (processLoop proc image_paths.length 0 image_paths
          (initialProgressWrite image_paths.length t0)).2.1) ++
      [finalProgressWrite image_paths.length
        (processLoop proc image_paths.length 0 image_paths
          (initialProgressWrite image_paths.length t0)).2.2] := by
    simp [progress_writes, process_images, hne]
  rw [hW]
  refine ⟨?_, ?_, ?_⟩
  · refine List.chain'_append.mpr ⟨hA, List.chain'_singleton _, ?_⟩
    intro x hx y hy
    rw [hB] at hx
    simp only [Option.mem_def, Option.some_inj] at hx
    simp only [List.head?_cons, Option.mem_def, Option.some_inj] at hy
    subst hx
    subst hy
    simp only [finalProgressWrite]
    push_cast at hE ⊢
    omega
  · simp only [← List.cons_append, List.dropLast_concat]
    intro q hq
    rcases List.mem_cons.mp hq with rfl | hq
    · refine ⟨rfl, ?_⟩
      simp only [initialProgressWrite]
      omega
    · obtain ⟨h1, h2⟩ := hC q hq
      refine ⟨h1, ?_⟩
      push_cast at h2 ⊢
      omega
  · simp only [← List.cons_append, List.getLast?_concat]
    intro q hq
    simp only [Option.some_inj] at hq
    subst hq
    exact ⟨rfl, rfl⟩

/-- A concrete template used by the concrete evaluations below. -/
def tEx : Template :=
  { category := "cat", title := "titleA", menu := "menu",
    comment := "comA", hashtag := "tagA" }

/-- A second, different concrete template. -/
def tEx2 : Template :=
  { category := "cat", title := "titleB", menu := "menu",
    comment := "comB", hashtag := "tagB" }

/-- A concrete successful `ProcessResult` with one alternative template and
no user selection yet. -/
def rEx : ProcessResult :=
  { image_name := "b.jpg"
    style_analysis :=
      { category := "bob"
        features :=
          { color := "ash", cut_technique := "layer",
            styling := "wave", impression := "soft" }
        keywords := ["k1"] }
    attribute_analysis := { sex := "f", length := "mid" }
    selected_template := tEx
    alternative_templates := [tEx2]
    user_selected_template := none
    selected_stylist := { name := "s", specialties := "cut", description := "d" }
    selected_coupon := { name := "c", price := 100, description := "d" }
    stylist_reason := ""
    coupon_reason := ""
    template_reason := "" }

/-- A concrete processor for which image `a.jpg` raises and every other
image succeeds with `rEx`. -/
def procEx : String → ImageOutcome :=
  fun p => if p = "a.jpg" then ImageOutcome.failure "boom" else ImageOutcome.success rEx

/-- A concrete processor for which every image succeeds with `rEx`. -/
def proc2Ex : String → ImageOutcome :=
  fun _ => ImageOutcome.success rEx

/-- C6 witness: the progress monotonicity and completion property evaluated
on a concrete two-image batch whose first image fails. -/
theorem C6_progress_monotone_witness :
    List.Chain' (fun a b => a.current ≤ b.current)
        (progress_writes procEx ["a.jpg", "b.jpg"] 0) ∧
    (∀ q ∈ (progress_writes procEx ["a.jpg", "b.jpg"] 0).dropLast,
        q.complete = false ∧
        q.current < ((["a.jpg", "b.jpg"] : List String).length : Int)) ∧
    (∀ q, (progress_writes procEx ["a.jpg", "b.jpg"] 0).getLast? = some q →
        q.current = ((["a.jpg", "b.jpg"] : List String).length : Int) ∧
        q.complete = true) :=
  C6_progress_monotone procEx ["a.jpg", "b.jpg"] 0 (by decide)

/-- C1 (amended): `process_images` returns one result per image whose
processing produced a truthy result, in input order (the order of
`filterMap` over the input sequence); an image that raised, or whose
processor call returned a falsy value, contributes no result slot.  The
output length therefore never exceeds — but need not equal — the input
length. -/
theorem C1_results_per_success (proc : String → ImageOutcome)
    (image_paths : List String) (t0 : Nat) :
    (process_images proc image_paths t0).1 =
      image_paths.filterMap (image_result proc) ∧
    (process_images proc image_paths t0).1.length ≤ image_paths.length := by
  refine ⟨process_images_results proc image_paths t0, ?_⟩
  rw [process_images_results]
  exact List.length_filterMap_le _ _

/-- C1 counterexample: a two-image batch whose first image raises yields a
result sequence of length 1, not 2 — the failed image gets no result slot,
contradicting the claimed one-slot-per-input-image shape. -/
theorem C1_counterexample :
    (process_images procEx ["a.jpg", "b.jpg"] 0).1.length = 1 ∧
    (["a.jpg", "b.jpg"] : List String).length = 2 ∧
    ¬((1 : Nat) = 2) := by
  refine ⟨rfl, rfl, by decide⟩

/-- C5 (amended): for an empty image list `process_images` returns the
empty result sequence immediately and performs no progress write at all;
the session progress value is left exactly as it was — in particular it is
not marked complete by the call. -/
theorem C5_empty_batch (proc : String → ImageOutcome) (t0 : Nat)
    (sess : Progress) :
    process_images proc [] t0 = ([], []) ∧
    progress_after sess (process_images proc [] t0) = sess :=
  ⟨rfl, rfl⟩

/-- C5 counterexample: starting from the freshly initialized progress value
(total 0, complete false), an empty batch returns `[]` but the progress
afterwards still shows `complete = false` (and total 0) — not
`complete = true` as the claim states. -/
theorem C5_counterexample :
    (process_images procEx [] 0).1 = [] ∧
    (progress_after init_progress (process_images procEx [] 0)).total = 0 ∧
    (progress_after init_progress (process_images procEx [] 0)).complete = false :=
  ⟨rfl, rfl, rfl⟩

lemma update_progress_some (current total : Int) (message : String)
    (stage_details : Option String) (p : Progress) :
    update_progress current total message stage_details (some p) =
      some { p with
        current := current, total := total, message := message,
        stage_details :=
          (match stage_details with
           | some d => some d
           | none => p.stage_details),
        complete := if current ≥ total ∧ total > 0 then true else p.complete } := by
  cases stage_details <;>
    by_cases hc : current ≥ total ∧ total > 0 <;>
      simp [update_progress, hc]

/-- C7 (amended): `update_progress` never raises — it is a total function
that is a no-op when the progress key is absent — but it performs no
clamping: the stored `current` equals the given index verbatim, also for
negative indices and for indices above `total`, and `complete` is set
exactly when `current >= total and total > 0`. -/
theorem C7_update_progress_no_clamp (current total : Int) (message : String)
    (stage_details : Option String) (p : Progress) :
    (∃ q, update_progress current total message stage_details (some p) = some q ∧
        q.current = current ∧ q.total = total ∧ q.message = message ∧
        q.complete = (if current ≥ total ∧ total > 0 then true else p.complete)) ∧
    update_progress current total message stage_details none = none := by
  refine ⟨⟨_, update_progress_some current total message stage_details p,
    rfl, rfl, rfl, rfl⟩, rfl⟩

/-- C7 counterexample: updating with index 5 and total 3 stores `current = 5`,
which lies outside the claimed clamping interval `[0, 3]` (and also flips
the completion flag). -/
theorem C7_counterexample :
    update_progress 5 3 "" none (some init_progress) =
      some { current := 5, total := 3, message := "", start_time := none,
             complete := true, stage_details := none } ∧
    ¬((5 : Int) ≤ 3) := by
  refine ⟨by simp [update_progress_some, init_progress], by decide⟩

lemma filterMap_skip_none (g : String → Option ProcessResult) (pk : String)
    (hg : g pk = none) :
    ∀ l : List String,
      l.filterMap g = (l.filter (fun p => p != pk)).filterMap g := by
  intro l
  induction l with
  | nil => rfl
  | cons x xs ih =>
    by_cases hx : x = pk
    · subst hx
      simp [List.filter_cons, List.filterMap_cons, hg, ih]
    · simp [List.filter_cons, List.filterMap_cons, hx, ih]

/-- C2: a failure while processing image `pk` does not abort the batch —
the loop still visits every input image, writing the full two progress
entries per image — and does not change the result of any other image:
restricted to the images other than `pk`, the results of the failing run
equal those of a run with a processor that behaves identically except that
`pk` succeeds. -/
theorem C2_failure_isolation (proc1 proc2 : String → ImageOutcome)
    (image_paths : List String) (pk e : String) (t0 : Nat)
    (hmem : pk ∈ image_paths)
    (hagree : ∀ p, p ≠ pk → proc1 p = proc2 p)
    (hfail : proc1 pk = ImageOutcome.failure e) :
    (process_images proc1 image_paths t0).2.length = 2 * image_paths.length + 2 ∧
    (process_images proc1 image_paths t0).1 =
      (image_paths.filter (fun p => p != pk)).filterMap (image_result proc2) ∧
    (image_paths.filter (fun p => p != pk)).filterMap (image_result proc1) =
      (image_paths.filter (fun p => p != pk)).filterMap (image_result proc2) := by
  have hne : image_paths.isEmpty = false := by
    rcases image_paths with _ | ⟨a, l⟩
    · cases hmem
    · rfl
  have hcongr :
      (image_paths.filter (fun p => p != pk)).filterMap (image_result proc1) =
      (image_paths.filter (fun p => p != pk)).filterMap (image_result proc2) := by
    apply List.filterMap_congr
    intro p hp
    have hpne : p ≠ pk := by
      have := (List.mem_filter.mp hp).2
      simpa using this
    simp [image_result, hagree p hpne]
  refine ⟨?_, ?_, hcongr⟩
  · simp [process_images, hne, processLoop_trace_length]
  · rw [process_images_results,
      filterMap_skip_none (image_result proc1) pk (by simp [image_result, hfail])]
    exact hcongr

/-- C2 witness: failure isolation evaluated on a concrete two-image batch
where `a.jpg` fails under `procEx` and succeeds under `proc2Ex`. -/
theorem C2_failure_isolation_witness :
    (process_images procEx ["a.jpg", "b.jpg"] 0).2.length =
      2 * (["a.jpg", "b.jpg"] : List String).length + 2 ∧
    (process_images procEx ["a.jpg", "b.jpg"] 0).1 =
      ((["a.jpg", "b.jpg"] : List String).filter
        (fun p => p != "a.jpg")).filterMap (image_result proc2Ex) ∧
    ((["a.jpg", "b.jpg"] : List String).filter
        (fun p => p != "a.jpg")).filterMap (image_result procEx) =
      ((["a.jpg", "b.jpg"] : List String).filter
        (fun p => p != "a.jpg")).filterMap (image_result proc2Ex) :=
  C2_failure_isolation procEx proc2Ex ["a.jpg", "b.jpg"] "a.jpg" "boom" 0
    (by decide) (fun p hp => by simp [procEx, proc2Ex, hp]) (by simp [procEx])

/-- The template rendered in the per-image details pane, tagged by which
branch of `display_image_details` produced it. -/
inductive ShownTemplate where
  | fromUser (t : Template)
  | fromAI (t : Template)
deriving DecidableEq, Repr

/-- Embedding of the template block of `display_image_details`
(`streamlit_app.py` lines 640-662): the pane shows
`user_selected_template` when it is set and `selected_template`
otherwise; since `selected_template` is always populated, the
no-template warning branch of line 662 is unreachable. -/
def detail_template (r : ProcessResult) : ShownTemplate :=
  match r.user_selected_template with
  | some t => ShownTemplate.fromUser t
  | none => ShownTemplate.fromAI r.selected_template

/-- `display_image_details` shows one template block per result. -/
def display_image_details (results : List ProcessResult) : List ShownTemplate :=
  results.map detail_template

/-- One row of the summary DataFrame built by
`convert_results_to_dataframe`. -/
structure DataRow where
  image : String
  category : String
  style : String
  menu : String
  comment : String
  hashtag : String
deriving DecidableEq, Repr

/-- Embedding of the per-result row of `convert_results_to_dataframe`
(lines 586-597): the row is always built from `selected_template`; the
falsy-template fallbacks of the source are unreachable because
`selected_template` is always populated (and a `Template` object is
truthy), and the hashtag attribute always exists. -/
def result_row (r : ProcessResult) : DataRow :=
  let template := r.selected_template
  { image := r.image_name, category := template.category,
    style := template.title, menu := template.menu,
    comment := template.comment, hashtag := template.hashtag }

/-- Embedding of `convert_results_to_dataframe` (lines 582-604). -/
def convert_results_to_dataframe (results : List ProcessResult) : List DataRow :=
  results.map result_row

/-- A copy of `rEx` carrying a user-selected template that differs from the
AI-selected one. -/
def rUser : ProcessResult := { rEx with user_selected_template := some tEx2 }

/-- C3 (amended): the per-image detail display uses `user_selected_template`
when it is set and `selected_template` otherwise, but the tabular export is
built from `selected_template` only — it ignores `user_selected_template`
entirely (changing that field does not change the exported row, whose style
column always carries the AI-selected title). -/
theorem C3_display_export_templates (r : ProcessResult) (o : Option Template)
    (t : Template) :
    (r.user_selected_template = some t →
      detail_template r = ShownTemplate.fromUser t) ∧
    (r.user_selected_template = none →
      detail_template r = ShownTemplate.fromAI r.selected_template) ∧
    result_row { r with user_selected_template := o } = result_row r ∧
    (convert_results_to_dataframe [r]).map (fun row => row.style) =
      [r.selected_template.title] := by
  refine ⟨?_, ?_, rfl, rfl⟩
  · intro h
    simp [detail_template, h]
  · intro h
    simp [detail_template, h]

/-- C3 counterexample: `rUser` has user-selected template `titleB`, yet the
exported DataFrame row shows the AI-selected `titleA` — the tabular export
does not use `user_selected_template`, contradicting the claim that every
downstream consumer does. -/
theorem C3_counterexample :
    rUser.user_selected_template = some tEx2 ∧
    tEx2.title = "titleB" ∧
    (convert_results_to_dataframe [rUser]).map (fun row => row.style) =
      ["titleA"] ∧
    ¬(("titleA" : String) = "titleB") := by
  refine ⟨rfl, rfl, rfl, by decide⟩

/-- C3 witness: the detail pane prefers the user template for `rUser`,
falls back to the AI template for `rEx`, and the export row is unaffected
by the user-selected template. -/
theorem C3_display_export_templates_witness :
    detail_template rUser = ShownTemplate.fromUser tEx2 ∧
    detail_template rEx = ShownTemplate.fromAI rEx.selected_template ∧
    result_row { rEx with user_selected_template := some tEx2 } =
      result_row rEx :=
  ⟨(C3_display_export_templates rUser (some tEx2) tEx2).1 rfl,
   (C3_display_export_templates rEx none tEx).2.1 rfl,
   (C3_display_export_templates rEx (some tEx2) tEx).2.2.1⟩

/-- Errors of the confirmation handler. `keyError` models the Python
KeyError raised at line 569 when an image has a stored selection but no
stored choices; `indexOutOfRange` is the failure the spec prescribes for an
out-of-range selection index — the code never produces it. -/
inductive ConfirmError where
  | keyError (image_name : String)
  | indexOutOfRange (image_name : String)
deriving DecidableEq, Repr

/-- Lookup in a session dictionary keyed by image name. -/
def lookup_session {α : Type} (key : String) (m : List (String × α)) :
    Option α :=
  (m.find? (fun kv => kv.1 == key)).map (fun kv => kv.2)

/-- One iteration of the confirmation loop (lines 565-571) on result `r`:
when the user stored a selection index for `r.image_name`, its template
choices are looked up (a missing entry is the Python KeyError of line 569)
and, when `0 <= selected_idx < len(templates)`, `user_selected_template`
is set to the chosen template; an out-of-range index leaves the result
untouched and produces no error. -/
def confirm_step (user_selections : List (String × Int))
    (template_choices : List (String × List Template)) (r : ProcessResult) :
    Except ConfirmError ProcessResult :=
  match lookup_session r.image_name user_selections with
  | none => Except.ok r
  | some selected_idx =>
    match lookup_session r.image_name template_choices with
    | none => Except.error (ConfirmError.keyError r.image_name)
    | some templates =>
      if 0 ≤ selected_idx ∧ selected_idx < (templates.length : Int) then
        Except.ok { r with
          user_selected_template :=
            some (templates.getD selected_idx.toNat default) }
      else Except.ok r

/-- Embedding of the confirm-button branch of `display_template_choices`
(lines 563-580): the results are updated in place, in order; an uncaught
KeyError aborts the loop, keeping the updates already made and leaving the
remaining results untouched.  The first component always carries all
results (mutated up to the abort point), the second the error that
escaped, if any. -/
def confirm_template_selections (user_selections : List (String × Int))
    (template_choices : List (String × List Template)) :
    List ProcessResult → List ProcessResult × Option ConfirmError
  | [] => ([], none)
  | r :: rest =>
    match confirm_step user_selections template_choices r with
    | Except.error e => (r :: rest, some e)
    | Except.ok r2 =>
      let out := confirm_template_selections user_selections template_choices rest
      (r2 :: out.1, out.2)

lemma confirm_step_idem (user_selections : List (String × Int))
    (template_choices : List (String × List Template))
    (r r2 : ProcessResult)
    (h : confirm_step user_selections template_choices r = Except.ok r2) :
    confirm_step user_selections template_choices r2 = Except.ok r2 := by
  unfold confirm_step at h ⊢
  cases h1 : lookup_session r.image_name user_selections with
  | none =>
    simp only [h1] at h
    injection h with h3
    subst h3
    simp only [h1]
  | some idx =>
    simp only [h1] at h
    cases h2 : lookup_session r.image_name template_choices with
    | none =>
      simp only [h2] at h
      exact Except.noConfusion h
    | some ts =>
      simp only [h2] at h
      by_cases hin : 0 ≤ idx ∧ idx < (ts.length : Int)
      · rw [if_pos hin] at h
        injection h with h3
        subst h3
        simp only [h1, h2]
        rw [if_pos hin]
      · rw [if_neg hin] at h
        injection h with h3
        subst h3
        simp only [h1, h2]
        rw [if_neg hin]

/-- C8: running the batch-wide confirmation a second time, with the stored
user selections and template choices unchanged, produces exactly the same
result list and the same error outcome as running it once. -/
theorem C8_confirm_idempotent (user_selections : List (String × Int))
    (template_choices : List (String × List Template))
    (results : List ProcessResult) :
    confirm_template_selections user_selections template_choices
        (confirm_template_selections user_selections template_choices results).1 =
      confirm_template_selections user_selections template_choices results := by
  induction results with
  | nil => rfl
  | cons r rest ih =>
    cases h : confirm_step user_selections template_choices r with
    | error e =>
      simp [confirm_template_selections, h]
    | ok r2 =>
      have h2 := confirm_step_idem user_selections template_choices r r2 h
      simp [confirm_template_selections, h, h2, ih]

/-- The stored user selections used by the concrete C4 checks: index 2 for
image `b.jpg`, one past the last valid index. -/
def selEx : List (String × Int) := [("b.jpg", 2)]

/-- The stored template choices for image `b.jpg`: the AI default plus one
alternative, so the valid indices are 0 and 1. -/
def chEx : List (String × List Template) := [("b.jpg", [tEx, tEx2])]

/-- C4 (amended): confirming with a stored selection index that is out of
range — at least `len(alternatives) + 1`, or negative — does not fail at
all: the guard of line 570 silently skips the assignment, the confirmation
completes without any error, and `user_selected_template` is left
unchanged.  No `IndexOutOfRange` failure is produced. -/
theorem C4_out_of_range_ignored (user_selections : List (String × Int))
    (template_choices : List (String × List Template)) (r : ProcessResult)
    (idx : Int) (ts : List Template)
    (h1 : lookup_session r.image_name user_selections = some idx)
    (h2 : lookup_session r.image_name template_choices = some ts)
    (h3 : (ts.length : Int) ≤ idx ∨ idx < 0) :
    confirm_step user_selections template_choices r = Except.ok r ∧
    confirm_template_selections user_selections template_choices [r] =
      ([r], none) := by
  have hstep : confirm_step user_selections template_choices r = Except.ok r := by
    unfold confirm_step
    simp only [h1, h2]
    rw [if_neg (by omega)]
  refine ⟨hstep, ?_⟩
  simp [confirm_template_selections, hstep]

/-- C4 counterexample: with the stored selection index 2 for `b.jpg` and
only the two templates `[tEx, tEx2]` to choose from (valid indices 0 and
1), confirming leaves the result list unchanged and reports no error at
all — in particular it does not fail with `IndexOutOfRange` as claimed,
and `user_selected_template` stays unset. -/
theorem C4_counterexample :
    lookup_session rEx.image_name selEx = some 2 ∧
    ((([tEx, tEx2] : List Template).length : Int) ≤ 2) ∧
    confirm_template_selections selEx chEx [rEx] = ([rEx], none) ∧
    rEx.user_selected_template = none := by
  refine ⟨rfl, by decide, rfl, rfl⟩

/-- C4 witness: the amended out-of-range behaviour evaluated at the
concrete result `rEx` with stored index 2 and two stored templates. -/
theorem C4_out_of_range_ignored_witness :
    confirm_step selEx chEx rEx = Except.ok rEx ∧
    confirm_template_selections selEx chEx [rEx] = ([rEx], none) :=
  C4_out_of_range_ignored selEx chEx rEx 2 [tEx, tEx2] rfl rfl
    (Or.inl (by decide))

lemma init_state_processor (s : SessionState) :
    (init_session_state s).processor = some (s.processor.getD none) := by
  cases h : s.processor <;>
    simp [init_session_state, h, apply_ite SessionState.processor]

lemma init_state_results (s : SessionState) :
    (init_session_state s).results = some (s.results.getD []) := by
  cases h : s.results <;>
    simp [init_session_state, h, apply_ite SessionState.results]

lemma init_state_progress (s : SessionState) :
    (init_session_state s).progress = some (s.progress.getD init_progress) := by
  cases h : s.progress <;>
    simp [init_session_state, h, apply_ite SessionState.progress]

lemma init_state_stylists (s : SessionState) :
    (init_session_state s).stylists = some (s.stylists.getD []) := by
  cases h : s.stylists <;>
    simp [init_session_state, h, apply_ite SessionState.stylists]

lemma init_state_coupons (s : SessionState) :
    (init_session_state s).coupons = some (s.coupons.getD []) := by
  cases h : s.coupons <;>
    simp [init_session_state, h, apply_ite SessionState.coupons]

lemma init_state_use_cache (s : SessionState) :
    (init_session_state s).use_cache = some (s.use_cache.getD false) := by
  cases h : s.use_cache <;>
    simp [init_session_state, h, apply_ite SessionState.use_cache]

lemma init_state_template_choices (s : SessionState) :
    (init_session_state s).template_choices =
      some (s.template_choices.getD []) := by
  cases h : s.template_choices <;>
    simp [init_session_state, h, apply_ite SessionState.template_choices]

lemma init_state_user_selections (s : SessionState) :
    (init_session_state s).user_selections =
      some (s.user_selections.getD []) := by
  cases h : s.user_selections <;>
    simp [init_session_state, h, apply_ite SessionState.user_selections]

lemma init_state_salon_url (s : SessionState) :
    (init_session_state s).salon_url = some (s.salon_url.getD "") := by
  cases h : s.salon_url <;>
    simp [init_session_state, h, apply_ite SessionState.salon_url]

/-- C9: `init_session_state` only initializes session keys that are absent
and never overwrites an existing value: on a session in which every
managed key is already present it is the identity, and running it twice in
a row always has the same effect as running it once. -/
theorem C9_init_session_state :
    (∀ s : SessionState, all_keys_present s → init_session_state s = s) ∧
    (∀ s : SessionState,
      init_session_state (init_session_state s) = init_session_state s) := by
  constructor
  · intro s hs
    obtain ⟨h1, h2, h3, h4, h5, h6, h7, h8, h9⟩ := hs
    obtain ⟨v1, hv1⟩ := Option.isSome_iff_exists.mp h1
    obtain ⟨v2, hv2⟩ := Option.isSome_iff_exists.mp h2
    obtain ⟨v3, hv3⟩ := Option.isSome_iff_exists.mp h3
    obtain ⟨v4, hv4⟩ := Option.isSome_iff_exists.mp h4
    obtain ⟨v5, hv5⟩ := Option.isSome_iff_exists.mp h5
    obtain ⟨v6, hv6⟩ := Option.isSome_iff_exists.mp h6
    obtain ⟨v7, hv7⟩ := Option.isSome_iff_exists.mp h7
    obtain ⟨v8, hv8⟩ := Option.isSome_iff_exists.mp h8
    obtain ⟨v9, hv9⟩ := Option.isSome_iff_exists.mp h9
    ext <;> simp [init_state_processor, init_state_results,
      init_state_progress, init_state_stylists, init_state_coupons,
      init_state_use_cache, init_state_template_choices,
      init_state_user_selections, init_state_salon_url,
      hv1, hv2, hv3, hv4, hv5, hv6, hv7, hv8, hv9]
  · intro s
    ext <;> simp [init_state_processor, init_state_results,
      init_state_progress, init_state_stylists, init_state_coupons,
      init_state_use_cache, init_state_template_choices,
      init_state_user_selections, init_state_salon_url]

/-- A fully-initialized concrete session state. -/
def sFull : SessionState :=
  { processor := some none, results := some [], progress := some init_progress,
    stylists := some [], coupons := some [], use_cache := some true,
    template_choices := some [], user_selections := some [],
    salon_url := some "u" }

/-- C9 witness: a session with all managed keys present is left unchanged
by `init_session_state`, and the call is idempotent on it. -/
theorem C9_init_session_state_witness :
    init_session_state sFull = sFull ∧
    init_session_state (init_session_state sFull) = init_session_state sFull :=
  ⟨C9_init_session_state.1 sFull (by decide),
   C9_init_session_state.2 sFull⟩

/-- An uploaded file as seen by `handle_image_upload`: the original
filename plus the outcomes of the external effects — whether writing the
bytes to the temp path succeeds, whether PIL `verify` accepts the saved
file, and the image dimensions reported on reopening. -/
structure UploadedFile where
  name : String
  save_ok : Bool
  verify_ok : Bool
  width : Int
  height : Int
deriving DecidableEq, Repr

/-- The characters of the final path component: everything after the last
slash. -/
def baseNameChars (cs : List Char) : List Char :=
  (cs.reverse.takeWhile (fun c => c != '/')).reverse

/-- `Path(name).suffix` as computed by Python pathlib: the substring of the
final path component starting at its last dot, provided that dot is
neither the leading nor the trailing character of the component; the empty
string otherwise. -/
def pySuffix (name : String) : String :=
  let cs := baseNameChars name.toList
  match cs.reverse.findIdx? (fun c => c == '.') with
  | none => ""
  | some j =>
    let i := cs.length - 1 - j
    if 0 < i ∧ i < cs.length - 1 then String.mk (cs.drop i) else ""

/-- ASCII lowercasing, as `str.lower()` acts on the ASCII file extensions
compared at line 1484. -/
def asciiLower (s : String) : String :=
  String.mk (s.toList.map Char.toLower)

/-- The extension allow-list of line 1484. -/
def allowed_extensions : List String := [".jpg", ".jpeg", ".png"]

/-- One iteration of the upload loop (lines 1477-1520) for the file at
enumeration index `i`: the lowercased suffix must be on the allow-list,
the save must succeed, PIL verification must pass, and the reported size
must be positive; any failure skips this file (`continue`).  On success
the saved temp path `temp/hairstyle_analyzer/styleimg_<i+1><ext>` is
recorded. -/
def upload_step (i : Nat) (f : UploadedFile) : Option String :=
  let file_ext := asciiLower (pySuffix f.name)
  if ¬ (allowed_extensions.contains file_ext) then none
  else if ¬ f.save_ok then none
  else if ¬ f.verify_ok then none
  else if f.width ≤ 0 ∨ f.height ≤ 0 then none
  else some ("temp/hairstyle_analyzer/styleimg_" ++ toString (i + 1) ++ file_ext)

/-- The upload loop over the enumerated files. -/
def upload_loop : Nat → List UploadedFile → List String
  | _, [] => []
  | i, f :: rest =>
    match upload_step i f with
    | some p => p :: upload_loop (i + 1) rest
    | none => upload_loop (i + 1) rest

/-- Embedding of `handle_image_upload` (lines 1456-1528): an empty upload
list returns `[]` before anything else; a failure of the top-level
directory setup — the only uncaught exception source, since the cleanup
and the per-file work have their own handlers — is caught by the outer
handler and yields `[]`; otherwise the files are processed independently
in enumeration order.  The function never raises. -/
def handle_image_upload (mkdir_ok : Bool)
    (uploaded_files : List UploadedFile) : List String :=
  if uploaded_files.isEmpty then []
  else if ¬ mkdir_ok then []
  else upload_loop 0 uploaded_files

/-- A file passes every per-file check of the upload loop: allowed
extension, successful save, successful PIL verification, and positive
width and height. -/
def upload_accepted (f : UploadedFile) : Bool :=
  if ¬ (allowed_extensions.contains (asciiLower (pySuffix f.name))) then false
  else if ¬ f.save_ok then false
  else if ¬ f.verify_ok then false
  else if f.width ≤ 0 ∨ f.height ≤ 0 then false
  else true

lemma upload_step_eq (i : Nat) (f : UploadedFile) :
    upload_step i f =
      if upload_accepted f then
        some ("temp/hairstyle_analyzer/styleimg_" ++ toString (i + 1) ++
          asciiLower (pySuffix f.name))
      else none := by
  unfold upload_step upload_accepted
  split_ifs <;> simp_all

lemma upload_loop_length :
    ∀ (files : List UploadedFile) (i : Nat),
      (upload_loop i files).length = (files.filter upload_accepted).length := by
  intro files
  induction files with
  | nil => intro i; rfl
  | cons f rest ih =>
    intro i
    by_cases h : upload_accepted f <;>
      simp [upload_loop, upload_step_eq, h, List.filter_cons, ih]

lemma upload_loop_mem :
    ∀ (files : List UploadedFile) (i : Nat) (p : String),
      p ∈ upload_loop i files →
      ∃ k f, files.get? k = some f ∧ upload_accepted f = true ∧
        upload_step (i + k) f = some p := by
  intro files
  induction files with
  | nil =>
    intro i p hp
    cases hp
  | cons f rest ih =>
    intro i p hp
    by_cases h : upload_accepted f
    · simp only [upload_loop, upload_step_eq, h, if_pos] at hp
      rcases List.mem_cons.mp hp with rfl | hp2
      · exact ⟨0, f, rfl, h, by simp [upload_step_eq, h]⟩
      · obtain ⟨k, g, hg, hacc, hstep⟩ := ih (i + 1) p hp2
        refine ⟨k + 1, g, by simpa using hg, hacc, ?_⟩
        rw [show i + (k + 1) = i + 1 + k by omega]
        exact hstep
    · simp only [upload_loop, upload_step_eq, h, if_neg, Bool.false_eq_true,
        not_false_iff] at hp
      obtain ⟨k, g, hg, hacc, hstep⟩ := ih (i + 1) p hp
      refine ⟨k + 1, g, by simpa using hg, hacc, ?_⟩
      rw [show i + (k + 1) = i + 1 + k by omega]
      exact hstep

/-- C10: `handle_image_upload` never raises (it is a total function, with
the top-level failure modelled by `mkdir_ok = false`); an empty upload
list yields `[]`; a top-level error yields `[]`; every returned path comes
from a file that passed the extension allow-list, the save, the PIL
verification and the positive-size check, and is that file's saved temp
path; and per-file failures are skipped without affecting the remaining
uploads — the output has exactly one path per accepted file. -/
theorem C10_handle_image_upload (b : Bool) (files : List UploadedFile) :
    handle_image_upload b [] = [] ∧
    handle_image_upload false files = [] ∧
    (∀ p ∈ handle_image_upload true files,
      ∃ k f, files.get? k = some f ∧ upload_accepted f = true ∧
        upload_step k f = some p) ∧
    (handle_image_upload true files).length =
      (files.filter upload_accepted).length := by
  refine ⟨rfl, ?_, ?_, ?_⟩
  · cases files <;> rfl
  · intro p hp
    by_cases hf : files.isEmpty
    · rcases List.isEmpty_iff.mp hf with rfl
      simp [handle_image_upload] at hp
    · have hrw : handle_image_upload true files = upload_loop 0 files := by
        simp [handle_image_upload, hf]
      rw [hrw] at hp
      obtain ⟨k, f, h1, h2, h3⟩ := upload_loop_mem files 0 p hp
      exact ⟨k, f, h1, h2, by simpa using h3⟩
  · by_cases hf : files.isEmpty
    · rcases List.isEmpty_iff.mp hf with rfl
      rfl
    · simp [handle_image_upload, hf, upload_loop_length]

/-- Concrete uploads: a valid image with an uppercase extension and a file
with a rejected extension. -/
def fsEx : List UploadedFile :=
  [{ name := "good.JPG", save_ok := true, verify_ok := true,
     width := 100, height := 50 },
   { name := "bad.txt", save_ok := true, verify_ok := true,
     width := 10, height := 10 }]

/-- C10 witness: the returned-path characterization applied to the
concrete upload list `fsEx` and the single path it produces. -/
theorem C10_handle_image_upload_witness :
    ∃ k f, fsEx.get? k = some f ∧ upload_accepted f = true ∧
      upload_step k f = some "temp/hairstyle_analyzer/styleimg_1.jpg" :=
  (C10_handle_image_upload true fsEx).2.2.1
    "temp/hairstyle_analyzer/styleimg_1.jpg" (by decide)
